import Mathlib

/-!
Shallow embedding of the Go package `but` (file `errors.go`): helpers for
reporting errors at the bottom of the call stack, plus a composite
multi-error type `Errors` with a deterministic multi-line rendering.

The diagnostic sink (stderr) is modelled as the list of strings written;
process termination (`os.Exit`) as an explicit event in a trace.
-/

namespace But

/-- A display value passed variadically to the reporter, as `fmt` sees it:
either a string operand, or a non-string operand carried together with its
default-format rendering.  `fmt.Sprint` inserts a space between two adjacent
operands exactly when neither is a string. -/
inductive DVal where
  | str : String → DVal
  | raw : String → DVal
deriving DecidableEq

/-- The text an operand renders to under its default format. -/
def DVal.render : DVal → String
  | .str s => s
  | .raw s => s

/-- Whether the operand is a string (drives `fmt.Sprint` spacing). -/
def DVal.isStr : DVal → Bool
  | .str _ => true
  | .raw _ => false

/-- `fmt.Sprint(args...)`: operands are rendered in their default formats and
concatenated; a space is added between two adjacent operands when neither is
a string. -/
def sprint : List DVal → String
  | [] => ""
  | [d] => d.render
  | a :: b :: rest =>
      a.render ++ (if a.isStr || b.isStr then "" else " ") ++ sprint (b :: rest)

/-- Go `strings.Join(elems, sep)`: empty list gives `""`, otherwise the first
element followed by `sep ++ e` for each remaining element (a left fold). -/
def stringsJoin (elems : List String) (sep : String) : String :=
  match elems with
  | [] => ""
  | x :: xs => xs.foldl (fun acc e => acc ++ sep ++ e) x

/-- Error values: an opaque leaf (e.g. `errors.New`), a wrapping error as
produced by `fmt.Errorf("...: %w", err)` (its message is the annotation,
`": "`, then the cause's message, and it unwraps to the cause), or a
composite `Errors{Msg, Errs}` value. -/
inductive Err where
  | leaf : String → Err
  | wrapped : String → Err → Err
  | comp : String → List Err → Err

mutual

/-- The `Error()` string of an error value.  For `comp` this is
`Errors.Error` from the source: a slice of length `len(Errs)+1` whose slot 0
is `Msg` when non-empty and the placeholder `"\n\t"` otherwise, whose later
slots are the items' `Error()` strings in order, joined with `"\n\t"`. -/
def Err.describe : Err → String
  | .leaf s => s
  | .wrapped msg e => msg ++ ": " ++ Err.describe e
  | .comp msg errs =>
      stringsJoin ((if msg ≠ "" then msg else "\n\t") :: describeList errs) "\n\t"

/-- The `Error()` strings of a list of error values, in order. -/
def describeList : List Err → List String
  | [] => []
  | e :: es => Err.describe e :: describeList es

end

/-- `errors.Unwrap`: only the wrapping errors built by `%w` have a cause. -/
def Err.unwrap : Err → Option Err
  | .wrapped _ e => some e
  | _ => none

/-- The Go struct `Errors`: an optional header message and a list of errors. -/
structure Errors where
  Msg : String
  Errs : List Err

/-- `Errors.Error` from the source, on the struct itself. -/
def Errors.Error (err : Errors) : String :=
  stringsJoin ((if err.Msg ≠ "" then err.Msg else "\n\t") :: describeList err.Errs) "\n\t"

set_option linter.dupNamespace false in
/-- The `Errors.Errors()` accessor: returns the list of errors unchanged. -/
def Errors.Errors (err : Errors) : List Err :=
  err.Errs

/-- The annotation step of `IfError`: with at least one argument the error is
wrapped by `fmt.Errorf(fmt.Sprint(args...)+": %w", err)`; with none it is
left alone. -/
def annotate (args : List DVal) (e : Err) : Err :=
  if args.length > 0 then Err.wrapped (sprint args) e else e

/-- `IfError(err, args...)`: for a nil error, nothing is printed and `false`
is returned; otherwise the (possibly annotated) error is printed to stderr
via `fmt.Fprintln` (which appends a newline) and `true` is returned.  The
second component is the list of strings written to the sink. -/
def IfError (err : Option Err) (args : List DVal) : Bool × List String :=
  match err with
  | some e => (true, [(annotate args e).describe ++ "\n"])
  | none => (false, [])

/-- The annotation step of `IfErrorf`: `fmt.Errorf(format+": %w", args..., err)`
always wraps, the annotation being the format applied to the arguments.  The
formatting engine is the injectable capability `fe`. -/
def annotatef (fe : String → List DVal → String) (format : String)
    (args : List DVal) (e : Err) : Err :=
  Err.wrapped (fe format args) e

/-- `IfErrorf(err, format, args...)`: same nil short-circuit as `IfError`,
but a non-nil error is always wrapped with the formatted annotation before
printing. -/
def IfErrorf (fe : String → List DVal → String) (err : Option Err)
    (format : String) (args : List DVal) : Bool × List String :=
  match err with
  | some e => (true, [(annotatef fe format args e).describe ++ "\n"])
  | none => (false, [])

/-- An observable event: a write to the diagnostic sink, or a call of the
process-termination primitive with an exit status. -/
inductive Ev where
  | out : String → Ev
  | exit : Nat → Ev
deriving DecidableEq

/-- Whether an event is an invocation of the termination primitive. -/
def Ev.isExit : Ev → Bool
  | .exit _ => true
  | .out _ => false

/-- Whether an event is compatible with "every termination has non-zero
status": true for writes, and for exits exactly when the status is not 0. -/
def Ev.nonzeroExit : Ev → Bool
  | .exit c => c != 0
  | .out _ => true

/-- `IfFatal(err, args...)`: for non-nil `err` it runs `IfError(err, args...)`
and then `os.Exit(1)`; for nil it does nothing.  The result is the trace of
events in order. -/
def IfFatal (err : Option Err) (args : List DVal) : List Ev :=
  match err with
  | some e => ((IfError (some e) args).2.map Ev.out) ++ [Ev.exit 1]
  | none => []

/-- `IfFatalf(err, format, args...)`: for non-nil `err` it runs `IfErrorf`
and then `os.Exit(1)`; for nil it does nothing. -/
def IfFatalf (fe : String → List DVal → String) (err : Option Err)
    (format : String) (args : List DVal) : List Ev :=
  match err with
  | some e => ((IfErrorf fe (some e) format args).2.map Ev.out) ++ [Ev.exit 1]
  | none => []

/-- `fmt.Fprintln(w, args...)`: operands rendered in default formats, spaces
always added between operands, newline appended. -/
def sprintln (args : List DVal) : String :=
  stringsJoin (args.map DVal.render) " " ++ "\n"

/-- `Fatal(args...)`: prints the arguments with `fmt.Fprintln` and exits. -/
def Fatal (args : List DVal) : List Ev :=
  [Ev.out (sprintln args), Ev.exit 1]

/-- `Fatalf(format, args...)`: prints the formatted string (no extra newline)
and exits. -/
def Fatalf (fe : String → List DVal → String) (format : String)
    (args : List DVal) : List Ev :=
  [Ev.out (fe format args), Ev.exit 1]

/-- The spec's stated concatenation rule for the plain variant: the display
values joined with no separator.  Stated for comparison with `sprint`, which
is what the source actually computes. -/
def specConcat : List DVal → String
  | [] => ""
  | d :: ds => d.render ++ specConcat ds

/-- Bounds-checked assignment `s[n] = v` on a list of slots; `none` exactly
when `n` is out of range (a Go panic). -/
def listSet : List String → Nat → String → Option (List String)
  | [], _, _ => none
  | _ :: xs, 0, v => some (v :: xs)
  | x :: xs, n + 1, v => (listSet xs n v).map (fun l => x :: l)

/-- The loop `for i, e := range err.Errs { s[i+1] = e.Error() }` with every
assignment bounds-checked: starting from counter `i`, writes the items'
strings at slots `i+1`, `i+2`, ... -/
def fillErrs : List String → Nat → List Err → Option (List String)
  | s, _, [] => some s
  | s, i, e :: es =>
      (listSet s (i + 1) (Err.describe e)).bind (fun s' => fillErrs s' (i + 1) es)

/-- `Errors.Error` re-traced with every slice access bounds-checked:
`s := make([]string, len(Errs)+1)`, `s[0] = ...`, the item loop, then
`strings.Join(s, "\n\t")`.  Returns `none` iff some access would panic. -/
def ErrorsErrorChecked (err : Errors) : Option String :=
  (listSet (List.replicate (err.Errs.length + 1) "") 0
      (if err.Msg ≠ "" then err.Msg else "\n\t")).bind fun s =>
  (fillErrs s 0 err.Errs).bind fun s' =>
  some (stringsJoin s' "\n\t")

/-! ### Helper lemmas -/

lemma describeList_eq_map (es : List Err) : describeList es = es.map Err.describe := by
  induction es with
  | nil => rfl
  | cons e es ih => simp [describeList, ih]

lemma stringsJoin_foldl_shift (sep : String) (xs : List String) :
    ∀ (a b : String),
      xs.foldl (fun acc e => acc ++ sep ++ e) (a ++ b)
        = a ++ xs.foldl (fun acc e => acc ++ sep ++ e) b := by
  induction xs with
  | nil => intro a b; rfl
  | cons x xs ih =>
      intro a b
      simp only [List.foldl_cons]
      have h : a ++ b ++ sep ++ x = a ++ (b ++ sep ++ x) := by
        simp [String.append_assoc]
      rw [h]
      exact ih a (b ++ sep ++ x)

lemma stringsJoin_cons_cons (sep x y : String) (ys : List String) :
    stringsJoin (x :: y :: ys) sep = x ++ sep ++ stringsJoin (y :: ys) sep := by
  simp only [stringsJoin, List.foldl_cons]
  exact stringsJoin_foldl_shift sep ys (x ++ sep) y

lemma empty_string_append (s : String) : "" ++ s = s := by
  rfl

lemma listSet_append (done : List String) (x v : String) (rest : List String) :
    listSet (done ++ x :: rest) done.length v = some (done ++ v :: rest) := by
  induction done with
  | nil => rfl
  | cons d ds ih => simp [listSet, ih]

lemma fillErrs_shape :
    ∀ (es : List Err) (done : List String), 0 < done.length →
      fillErrs (done ++ List.replicate es.length "") (done.length - 1) es
        = some (done ++ describeList es) := by
  intro es
  induction es with
  | nil =>
      intro done _
      simp [fillErrs, describeList]
  | cons e es ih =>
      intro done h
      have hn : done.length - 1 + 1 = done.length := Nat.succ_pred_eq_of_pos h
      simp only [List.length_cons, List.replicate_succ, fillErrs, hn]
      rw [listSet_append done "" (Err.describe e) (List.replicate es.length "")]
      have h2 := ih (done ++ [Err.describe e]) (by simp)
      simp only [List.length_append, List.length_cons, List.length_nil,
        Nat.add_sub_cancel, List.append_assoc, List.singleton_append] at h2
      simp only [Option.some_bind]
      rw [h2]
      simp [describeList]

lemma sprint_all_str :
    ∀ (p : List DVal), (∀ d ∈ p, d.isStr = true) → sprint p = specConcat p := by
  intro p
  induction p with
  | nil => intro _; rfl
  | cons a rest ih =>
      intro h
      cases rest with
      | nil => simp [sprint, specConcat, String.append_empty]
      | cons b rest2 =>
          have ha : a.isStr = true := h a (by simp)
          have hrest : ∀ d ∈ b :: rest2, d.isStr = true := by
            intro d hd
            exact h d (by simp [hd])
          simp only [sprint, specConcat, ha, Bool.true_or, if_true]
          rw [ih hrest]
          simp [String.append_empty, specConcat]

/-! ### Claim theorems -/

/-- C1: for every error value `e` (including nil) and every argument list,
`IfError(e, args...)` returns `true` iff `e` is non-nil, it writes to the
sink iff it returns `true`, and for nil `e` nothing is printed and `false`
is returned. -/
theorem ifError_true_iff_nonnil (e : Option Err) (args : List DVal) :
    ((IfError e args).1 = true ↔ e ≠ none) ∧
    ((IfError e args).2 ≠ [] ↔ (IfError e args).1 = true) ∧
    IfError none args = (false, []) := by
  refine ⟨?_, ?_, rfl⟩ <;> cases e <;> simp [IfError]

/-- C2: for every non-nil `e` and non-empty argument list `p`, `IfError`
returns `true` and the sink receives exactly the annotation built from `p`,
then `": "`, then `e`'s description, then a newline — so the printed text
contains both — and the produced wrapping error unwraps to the original
`e`. -/
theorem ifError_annotation_and_unwrap (e : Err) (p : List DVal) (hp : p ≠ []) :
    IfError (some e) p = (true, [sprint p ++ ": " ++ e.describe ++ "\n"]) ∧
    (annotate p e).unwrap = some e := by
  have hlen : 0 < p.length := List.length_pos.mpr hp
  have ha : annotate p e = Err.wrapped (sprint p) e := by
    simp [annotate, hlen]
  refine ⟨?_, by rw [ha]; rfl⟩
  simp [IfError, ha, Err.describe]

/-- C2 witness: the spec's end-to-end example, `IfError(errors.New("disk
full"), "saving config")` sends `"saving config: disk full\n"` to the sink
and returns `true`. -/
theorem ifError_annotation_and_unwrap_witness :
    IfError (some (Err.leaf "disk full")) [DVal.str "saving config"]
      = (true, ["saving config: disk full\n"]) ∧
    (annotate [DVal.str "saving config"] (Err.leaf "disk full")).unwrap
      = some (Err.leaf "disk full") := by
  have h := ifError_annotation_and_unwrap (Err.leaf "disk full")
    [DVal.str "saving config"] (by simp)
  refine ⟨?_, h.2⟩
  rw [h.1]
  rfl

/-- C3: for every non-nil `e`, template and argument list — including the
empty one — `IfErrorf` always wraps `e` with the formatted annotation and
prints the combination; the produced error unwraps to `e`.  By contrast the
plain variant leaves `e` unannotated when no arguments are given. -/
theorem ifErrorf_always_annotates (fe : String → List DVal → String) (e : Err)
    (format : String) (args : List DVal) :
    IfErrorf fe (some e) format args
      = (true, [fe format args ++ ": " ++ e.describe ++ "\n"]) ∧
    (annotatef fe format args e).unwrap = some e ∧
    annotate ([] : List DVal) e = e := by
  refine ⟨?_, rfl, rfl⟩
  simp [IfErrorf, annotatef, Err.describe]

/-- C4: a composite with header `"failed"` and items `[a, b]` renders to
exactly `"failed\n\t" ++ a.describe ++ "\n\t" ++ b.describe`; in general the
rendering is slot 0 (the header, or the placeholder when it is empty)
followed by the items' descriptions in order, all joined with `"\n\t"`. -/
theorem errorsError_two_items (a b : Err) :
    Errors.Error ⟨"failed", [a, b]⟩
      = "failed\n\t" ++ a.describe ++ "\n\t" ++ b.describe ∧
    ∀ (msg : String) (errs : List Err),
      Errors.Error ⟨msg, errs⟩
        = stringsJoin ((if msg ≠ "" then msg else "\n\t") :: errs.map Err.describe)
            "\n\t" := by
  constructor
  · have h0 : Errors.Error ⟨"failed", [a, b]⟩
        = stringsJoin ["failed", a.describe, b.describe] "\n\t" := by
      simp [Errors.Error, describeList]
    rw [h0, stringsJoin_cons_cons, stringsJoin_cons_cons]
    have h1 : stringsJoin [b.describe] "\n\t" = b.describe := rfl
    rw [h1]
    have h2 : ("failed" : String) ++ "\n\t" = "failed\n\t" := rfl
    rw [← h2]
    simp [String.append_assoc]
  · intro msg errs
    simp [Errors.Error, describeList_eq_map]

/-- C5: a composite with empty header and no items renders to exactly the
two-character placeholder, a newline followed by a tab. -/
theorem errorsError_empty_is_placeholder :
    Errors.Error ⟨"", []⟩ = "\n\t" ∧ (Errors.Error ⟨"", []⟩).length = 2 :=
  ⟨rfl, rfl⟩

/-- C6 counterexample: two non-string arguments are joined by `fmt.Sprint`
with a space, not adjacently, so the annotation is `"1 2"` while the
no-separator concatenation is `"12"`. -/
theorem ifError_nonstring_args_spaced :
    IfError (some (Err.leaf "x")) [DVal.raw "1", DVal.raw "2"]
      = (true, ["1 2: x\n"]) ∧
    sprint [DVal.raw "1", DVal.raw "2"] = "1 2" ∧
    specConcat [DVal.raw "1", DVal.raw "2"] = "12" ∧
    sprint [DVal.raw "1", DVal.raw "2"] ≠ specConcat [DVal.raw "1", DVal.raw "2"] :=
  ⟨rfl, rfl, rfl, by decide⟩

/-- C6 amended: when every argument is a string (and in general whenever no
two adjacent arguments are both non-strings), the plain variant joins the
arguments with no separator, and that concatenation prefixes the printed
annotation. -/
theorem ifError_concat_no_separator_strings (e : Err) (p : List DVal)
    (hstr : ∀ d ∈ p, d.isStr = true) (hp : p ≠ []) :
    sprint p = specConcat p ∧
    (IfError (some e) p).2 = [specConcat p ++ ": " ++ e.describe ++ "\n"] := by
  have hs := sprint_all_str p hstr
  have hlen : 0 < p.length := List.length_pos.mpr hp
  have ha : annotate p e = Err.wrapped (sprint p) e := by
    simp [annotate, hlen]
  refine ⟨hs, ?_⟩
  simp [IfError, ha, hs, Err.describe]

/-- C6 witness: two string arguments concatenate with no separator. -/
theorem ifError_concat_no_separator_strings_witness :
    sprint [DVal.str "a", DVal.str "b"] = specConcat [DVal.str "a", DVal.str "b"] ∧
    (IfError (some (Err.leaf "x")) [DVal.str "a", DVal.str "b"]).2
      = [specConcat [DVal.str "a", DVal.str "b"] ++ ": "
          ++ (Err.leaf "x").describe ++ "\n"] :=
  ifError_concat_no_separator_strings (Err.leaf "x") [DVal.str "a", DVal.str "b"]
    (by decide) (by decide)

/-- C7: `Errors.Error` cannot fail — re-traced with every slice access
bounds-checked it succeeds on every header and item list, returning exactly
the rendered string. -/
theorem errorsError_checked_total (err : Errors) :
    ErrorsErrorChecked err = some (Errors.Error err) := by
  unfold ErrorsErrorChecked
  rw [List.replicate_succ]
  simp only [listSet, Option.some_bind]
  have h := fillErrs_shape err.Errs [if err.Msg ≠ "" then err.Msg else "\n\t"]
    (by simp)
  simp only [List.length_cons, List.length_nil, List.singleton_append,
    Nat.add_sub_cancel] at h
  rw [h]
  simp [Errors.Error]

/-- C8: composite rendering is pure and deterministic — it depends only on
the header and the item list, and calling it twice on the same value yields
the identical string. -/
theorem errorsError_deterministic (a b : Errors) (h1 : a.Msg = b.Msg)
    (h2 : a.Errs = b.Errs) :
    Errors.Error a = Errors.Error b ∧ Errors.Error a = Errors.Error a := by
  have hab : a = b := by
    cases a
    cases b
    simp_all
  exact ⟨by rw [hab], rfl⟩

/-- C8 witness: two structurally equal composites render identically. -/
theorem errorsError_deterministic_witness :
    Errors.Error ⟨"h", [Err.leaf "x"]⟩ = Errors.Error ⟨"h", [Err.leaf "x"]⟩ :=
  (errorsError_deterministic ⟨"h", [Err.leaf "x"]⟩ ⟨"h", [Err.leaf "x"]⟩
    rfl rfl).1

/-- C9: each fatal variant's trace is exactly the written messages followed
by one invocation of the termination primitive with status 1 (non-zero) as
the last event — so termination happens exactly once and strictly after
printing — while for a nil error the conditional variants produce no events
at all. -/
theorem fatal_exits_once_after_print (fe : String → List DVal → String)
    (e : Err) (args fargs largs lfargs : List DVal) (format lformat : String) :
    IfFatal (some e) args
      = [Ev.out ((annotate args e).describe ++ "\n"), Ev.exit 1] ∧
    (IfFatal (some e) args).filter Ev.isExit = [Ev.exit 1] ∧
    (IfFatal (some e) args).all Ev.nonzeroExit = true ∧
    IfFatalf fe (some e) format fargs
      = [Ev.out ((annotatef fe format fargs e).describe ++ "\n"), Ev.exit 1] ∧
    (IfFatalf fe (some e) format fargs).filter Ev.isExit = [Ev.exit 1] ∧
    (IfFatalf fe (some e) format fargs).all Ev.nonzeroExit = true ∧
    Fatal largs = [Ev.out (sprintln largs), Ev.exit 1] ∧
    (Fatal largs).filter Ev.isExit = [Ev.exit 1] ∧
    (Fatal largs).all Ev.nonzeroExit = true ∧
    Fatalf fe lformat lfargs = [Ev.out (fe lformat lfargs), Ev.exit 1] ∧
    (Fatalf fe lformat lfargs).filter Ev.isExit = [Ev.exit 1] ∧
    (Fatalf fe lformat lfargs).all Ev.nonzeroExit = true ∧
    IfFatal none args = [] ∧
    IfFatalf fe none format fargs = [] := by
  refine ⟨rfl, ?_, ?_, rfl, ?_, ?_, rfl, ?_, ?_, rfl, ?_, ?_, rfl, rfl⟩ <;>
    simp [IfFatal, IfFatalf, IfError, IfErrorf, Fatal, Fatalf,
      Ev.isExit, Ev.nonzeroExit, List.filter, List.all]

/-- C10: with an empty header and at least one item, the rendering starts
with the placeholder `"\n\t"` immediately followed by the join separator
`"\n\t"`, i.e. it is `"\n\t\n\t"` followed by the items' descriptions joined
with `"\n\t"`. -/
theorem errorsError_empty_header_double_indent (e : Err) (es : List Err) :
    Errors.Error ⟨"", e :: es⟩
      = "\n\t\n\t" ++ stringsJoin ((e :: es).map Err.describe) "\n\t" := by
  have h0 : Errors.Error ⟨"", e :: es⟩
      = stringsJoin ("\n\t" :: Err.describe e :: describeList es) "\n\t" := by
    simp [Errors.Error, describeList]
  rw [h0, stringsJoin_cons_cons, describeList_eq_map]
  simp [String.append_assoc]

end But
